import Mathlib

/-!
Verification of the rtags query engine sources (`rclient/main.cpp`,
`src/Project.h`) against their natural-language specification.

The development shallowly embeds the client's output formatting
(`Output::printLocation`, `Output::printLocations`, `Output::print`,
`Output::printLocationImpl`), the option loop and mode dispatch of `main`,
and `Project::visitFile`.  Database query primitives
(`Database::createLocation`, `followLocation`, `findSymbol`, ...) are
external collaborators of the surfaced sources and are modelled as an
abstract record of functions.  The symbol store (`insertBatch` / `remove` /
sync) is not part of the surfaced sources and is modelled from the spec.
-/

/-- A source location: (FileId, line, column).  A zero FileId is the
sentinel invalid location. -/
structure Loc where
  file : Nat
  line : Nat
  column : Nat
deriving DecidableEq, Repr

/-- Modelled from the spec: `CursorInfo` (the value stored at each indexed
Location) with the attributes the store invariants speak about; the full
`CursorInfo.h` is not among the surfaced sources. -/
structure CursorInfo where
  symbolName : String
  usr : String
  targets : List Loc
  references : List Loc
deriving DecidableEq, Repr

/-- Modelled from the spec: the SymbolMap of the symbol store, an ordered
mapping Location to CursorInfo, embedded as an association list. -/
abbrev Store := List (Loc × CursorInfo)

/-- The symmetric targets-references relation over the stored entries:
for every pair of stored locations (a, b), b is in targets(a) if and only
if a is in references(b). -/
def Store.symmetric (s : Store) : Prop :=
  ∀ p ∈ s, ∀ q ∈ s, (q.1 ∈ p.2.targets ↔ p.1 ∈ q.2.references)

instance (s : Store) : Decidable s.symmetric := by
  unfold Store.symmetric
  infer_instance

/-- Two stored locations are linked when one records the other as a target
or as a referrer. -/
def Store.linked (s : Store) (a b : Loc) : Prop :=
  (∃ p ∈ s, p.1 = a ∧ b ∈ p.2.targets) ∨ (∃ q ∈ s, q.1 = b ∧ a ∈ q.2.references)

instance (s : Store) (a b : Loc) : Decidable (Store.linked s a b) := by
  unfold Store.linked
  infer_instance

/-- Modelled from the spec: the inverse-link repair performed inside
`insertBatch` ("their inverse links in other files' CursorInfos are
repaired"; "never a torn state where A's CursorInfo targets a Location in B
that no longer exists - the inverse-link repair inside insertBatch prevents
that").  Every stored cursor's targets and references are rebuilt from the
linked relation, restricted to stored locations. -/
def Store.repair (s : Store) : Store :=
  s.map fun p =>
    (p.1, { p.2 with
            targets := (s.map Prod.fst).filter fun b => decide (Store.linked s p.1 b)
            references := (s.map Prod.fst).filter fun b => decide (Store.linked s b p.1) })

/-- Drop every location with the given FileId from a cursor's targets and
references. -/
def scrubCI (f : Nat) (ci : CursorInfo) : CursorInfo :=
  { ci with targets := ci.targets.filter fun l => decide (l.file ≠ f)
          , references := ci.references.filter fun l => decide (l.file ≠ f) }

/-- Modelled from the spec: `remove(FileId)` - purge all entries for that
FileId and remove inverse references from every other CursorInfo that
pointed into it. -/
def Store.remove (f : Nat) (s : Store) : Store :=
  (s.filter fun p => decide (p.1.file ≠ f)).map fun p => (p.1, scrubCI f p.2)

/-- Insert the batch entries one by one, each replacing any existing entry
with the same key. -/
def Store.insertRaw (batch : Store) (s : Store) : Store :=
  batch.foldl (fun acc p => (acc.filter fun q => decide (q.1 ≠ p.1)) ++ [p]) s

/-- Modelled from the spec: `insertBatch(FileId, batch)` - atomic
replacement of all entries for that FileId; prior Locations with that
FileId are removed first and inverse links are repaired. -/
def Store.insertBatch (f : Nat) (batch : Store) (s : Store) : Store :=
  Store.repair (Store.insertRaw batch (Store.remove f s))

/-- Modelled from the spec: one sync pass calls `store.insertBatch` for
each FileId in the pending data. -/
def syncPass (pd : List (Nat × Store)) (s : Store) : Store :=
  pd.foldl (fun acc fb => Store.insertBatch fb.1 fb.2 acc) s

theorem Store.repair_symmetric (s : Store) : (Store.repair s).symmetric := by
  intro p hp q hq
  simp only [Store.repair, List.mem_map] at hp hq
  obtain ⟨a, ha, rfl⟩ := hp
  obtain ⟨b, hb, rfl⟩ := hq
  have hak : a.1 ∈ s.map Prod.fst := List.mem_map.mpr ⟨a, ha, rfl⟩
  have hbk : b.1 ∈ s.map Prod.fst := List.mem_map.mpr ⟨b, hb, rfl⟩
  simp [List.mem_filter, hak, hbk]

theorem Store.remove_symmetric (s : Store) (f : Nat) (hs : s.symmetric) :
    (Store.remove f s).symmetric := by
  intro p hp q hq
  simp only [Store.remove, List.mem_map, List.mem_filter, decide_eq_true_eq] at hp hq
  obtain ⟨a, ⟨ha, haf⟩, rfl⟩ := hp
  obtain ⟨b, ⟨hb, hbf⟩, rfl⟩ := hq
  simp only [scrubCI, List.mem_filter, decide_eq_true_eq]
  constructor
  · rintro ⟨h, -⟩
    exact ⟨(hs a ha b hb).1 h, haf⟩
  · rintro ⟨h, -⟩
    exact ⟨(hs a ha b hb).2 h, hbf⟩

theorem Store.insertBatch_symmetric (f : Nat) (batch s : Store) :
    (Store.insertBatch f batch s).symmetric :=
  Store.repair_symmetric _

theorem syncPass_symmetric (pd : List (Nat × Store)) (s : Store) (hs : s.symmetric) :
    (syncPass pd s).symmetric := by
  induction pd generalizing s with
  | nil => exact hs
  | cons fb rest ih => exact ih _ (Store.insertBatch_symmetric fb.1 fb.2 s)

/-- A small concrete store used to exercise the store operations. -/
def demoStore : Store :=
  [(⟨1, 1, 1⟩, ⟨"foo", "u1", [⟨2, 1, 1⟩], []⟩),
   (⟨2, 1, 1⟩, ⟨"foo", "u1", [], [⟨1, 1, 1⟩]⟩)]

/-- C1: after any successful sync, and after any insertBatch or remove on
the symbol store, the targets/references relation is symmetric: for every
pair of stored locations (a, b), b is in targets(a) if and only if a is in
references(b). -/
theorem store_ops_preserve_symmetry (s : Store) (f : Nat) (batch : Store)
    (pd : List (Nat × Store)) (hs : s.symmetric) :
    (Store.insertBatch f batch s).symmetric ∧ (Store.remove f s).symmetric ∧
      (syncPass pd s).symmetric :=
  ⟨Store.insertBatch_symmetric f batch s, Store.remove_symmetric s f hs,
    syncPass_symmetric pd s hs⟩

/-- Witness for C1 at a concrete symmetric store. -/
theorem store_ops_preserve_symmetry_witness :
    (Store.insertBatch 1 [] demoStore).symmetric ∧ (Store.remove 1 demoStore).symmetric ∧
      (syncPass [] demoStore).symmetric :=
  store_ops_preserve_symmetry demoStore 1 [] [] (by decide)

/-! ## Output formatting (`class Output` in `rclient/main.cpp`) -/

/-- Output flag `PathsRelativeToRoot = 0x01`. -/
def pathsRelFlag : Nat := 1

/-- Output flag `NoContext = 0x02`. -/
def noContextFlag : Nat := 2

/-- Output flag `SeparateLocationsBySpace = 0x08`. -/
def separateBySpace : Nat := 8

/-- Output flag `PrecedingSpacePending = 0x10`. -/
def precedingSpace : Nat := 16

/-- Output flag `SortOutput = 0x20`. -/
def sortOutputFlag : Nat := 32

/-- Byte-wise comparison of character lists, mirroring `qSort` ordering on
`QByteArray`. -/
def strLeB : List Char → List Char → Bool
  | [], _ => true
  | _ :: _, [] => false
  | a :: as, b :: bs => if a = b then strLeB as bs else decide (a.toNat < b.toNat)

/-- Byte-wise string comparison. -/
def strLe (a b : String) : Bool :=
  strLeB a.data b.data

/-- Insert a string into a sorted list, keeping it sorted under `strLe`. -/
def sortInsert (x : String) : List String → List String
  | [] => [x]
  | y :: ys => if strLe x y then x :: y :: ys else y :: sortInsert x ys

/-- Insertion sort on strings, modelling `qSort` on a `QList<QByteArray>`. -/
def sortStrings : List String → List String
  | [] => []
  | x :: xs => sortInsert x (sortStrings xs)

/-- The abstract database interface that `main` calls into
(`Database` is an external collaborator of the surfaced sources). -/
structure DB where
  createLocation : String → Loc
  followLocation : Loc → Loc
  findSuper : Loc → Loc
  allReferences : Loc → List Loc
  findReferences : Loc → List Loc
  findSubs : Loc → List Loc
  findSymbol : String → List Loc
  listSymbols : String → List String
  filesList : List String
  sourceDir : String
  pathOf : Loc → String
  fileLine : Loc → Option String

/-- Modelled from the spec: `Database::locationToString` is not among the
surfaced sources; the spec states every response line starts with
`path:line:column`.  The `PathsRelativeToRoot` flag only changes how the
path component is rendered, which `DB.pathOf` abstracts. -/
def locationToString (db : DB) (loc : Loc) : String :=
  db.pathOf loc ++ ":" ++ toString loc.line ++ ":" ++ toString loc.column

/-- Mirrors `Output::printLocationImpl`: render the location, prepend a
space when `PrecedingSpacePending` is set, and unless `NoContext` is set
append a tab and the source line read from the file (nothing when the file
cannot be opened, which `DB.fileLine` models as `none`). -/
def printLocationImpl (db : DB) (flags : Nat) (loc : Loc) : String :=
  let out := locationToString db loc
  let out := if flags &&& precedingSpace ≠ 0 then " " ++ out else out
  if flags &&& noContextFlag = 0 then
    match db.fileLine loc with
    | some ctx => out ++ "\t" ++ ctx
    | none => out
  else out

/-- Clear the `SeparateLocationsBySpace` bit, mirroring
`mFlags & ~SeparateLocationsBySpace`. -/
def withoutSepFlag (flags : Nat) : Nat :=
  if flags &&& separateBySpace ≠ 0 then flags - separateBySpace else flags

/-- Mirrors `Output::printLocation`: one printf of the rendered location
followed by a newline, i.e. exactly one output line. -/
def printLocation (db : DB) (flags : Nat) (loc : Loc) : List String :=
  [printLocationImpl db (withoutSepFlag flags) loc]

/-- Mirrors `Output::printLocations`: render every location, sort when
`SortOutput` is set, then either print one line per location or, when
`SeparateLocationsBySpace` is set, print all of them space-separated on a
single line (terminated by one newline even when empty). -/
def printLocations (db : DB) (flags : Nat) (locs : List Loc) : List String :=
  let out := locs.map (printLocationImpl db flags)
  let out := if flags &&& sortOutputFlag ≠ 0 then sortStrings out else out
  if flags &&& separateBySpace ≠ 0 then [String.intercalate " " out] else out

/-- Mirrors `Output::print`: the C++ condition is `if (SortOutput)`, which
tests the nonzero enum constant `SortOutput = 0x20` rather than
`mFlags & SortOutput`, so the list is sorted regardless of the flags. -/
def printLines (_flags : Nat) (out : List String) : List String :=
  if (32 : Nat) ≠ 0 then sortStrings out else out

/-! ## Query mode handlers (the `switch (mode)` body of `main`) -/

/-- Check whether the needle starts the haystack. -/
def startsList : List Char → List Char → Bool
  | [], _ => true
  | _ :: _, [] => false
  | a :: as, b :: bs => a = b && startsList as bs

/-- Check whether the needle occurs somewhere in the haystack, mirroring
`QByteArray::contains`. -/
def strHas (needle : List Char) : List Char → Bool
  | [] => needle.isEmpty
  | c :: cs => startsList needle (c :: cs) || strHas needle cs

/-- Accumulate into a `QSet`-style collection: append each element not
already present. -/
def locUnion (acc xs : List Loc) : List Loc :=
  xs.foldl (fun a x => if x ∈ a then a else a ++ [x]) acc

/-- What one mode case of `main` did for one database: the stdout lines,
the stderr lines, and the locations it passed to the database's
location-based query primitives. -/
structure ModeRun where
  outLines : List String
  errLines : List String
  queried : List Loc
deriving DecidableEq, Repr

/-- Mirrors the `AllReferences` case of `main`: a parsable location is
queried directly; otherwise `Invalid arg` goes to stderr and no query
runs. -/
def runAllReferences (db : DB) (flags : Nat) (arg : String) : ModeRun :=
  let loc := db.createLocation arg
  if loc.file ≠ 0 then
    { outLines := printLocations db flags (db.allReferences loc)
      errLines := []
      queried := [loc] }
  else
    { outLines := [], errLines := ["Invalid arg " ++ arg], queried := [] }

/-- Mirrors the `FollowSymbol` case of `main`: a parsable location is
followed directly (printing at most one line); otherwise every
`findSymbol` result is followed and the valid follow targets are
printed. -/
def runFollow (db : DB) (flags : Nat) (arg : String) : ModeRun :=
  let loc := db.createLocation arg
  if loc.file ≠ 0 then
    let l2 := db.followLocation loc
    { outLines := if l2.file ≠ 0 then printLocation db flags l2 else []
      errLines := []
      queried := [loc] }
  else
    let out := (db.findSymbol arg).foldl
      (fun acc l =>
        let ll := db.followLocation l
        if ll.file ≠ 0 then acc ++ [ll] else acc) []
    { outLines := printLocations db flags out
      errLines := []
      queried := db.findSymbol arg }

/-- Mirrors the `References` case of `main`: a parsable location is
queried directly; otherwise references of every `findSymbol` result are
unioned. -/
def runReferences (db : DB) (flags : Nat) (arg : String) : ModeRun :=
  let loc := db.createLocation arg
  if loc.file ≠ 0 then
    { outLines := printLocations db flags (db.findReferences loc)
      errLines := []
      queried := [loc] }
  else
    let out := (db.findSymbol arg).foldl
      (fun acc l => locUnion acc (db.findReferences l)) []
    { outLines := printLocations db flags out
      errLines := []
      queried := db.findSymbol arg }

/-- Mirrors the `FindSymbols` case of `main`: a pure name query. -/
def runFindSymbols (db : DB) (flags : Nat) (arg : String) : ModeRun :=
  { outLines := printLocations db flags (db.findSymbol arg)
    errLines := []
    queried := [] }

/-- Mirrors the `ListSymbols` case of `main`: print the symbol names via
`Output::print` when there are any. -/
def runListSymbols (db : DB) (flags : Nat) (arg : String) : ModeRun :=
  let symbolNames := db.listSymbols arg
  { outLines := if symbolNames ≠ [] then printLines flags symbolNames else []
    errLines := []
    queried := [] }

/-- The prefix put before every path printed by the `Files` case: `./`
when `PathsRelativeToRoot` is set, the stored source directory
otherwise. -/
def filesRoot (db : DB) (flags : Nat) : String :=
  if flags &&& pathsRelFlag ≠ 0 then "./" else db.sourceDir

/-- Mirrors the `Files` case of `main`: print every stored path containing
the argument as a substring (all of them when the argument is empty),
prefixed by the root. -/
def runFiles (db : DB) (flags : Nat) (arg : String) : ModeRun :=
  { outLines := (db.filesList.filter
        (fun p => decide (arg = "") || strHas arg.data p.data)).map
        (fun p => filesRoot db flags ++ p)
    errLines := []
    queried := [] }

/-- Mirrors the `FindSuper` case of `main`: structurally identical to
`FollowSymbol` with `findSuper` in place of `followLocation`. -/
def runFindSuper (db : DB) (flags : Nat) (arg : String) : ModeRun :=
  let loc := db.createLocation arg
  if loc.file ≠ 0 then
    let l2 := db.findSuper loc
    { outLines := if l2.file ≠ 0 then printLocation db flags l2 else []
      errLines := []
      queried := [loc] }
  else
    let out := (db.findSymbol arg).foldl
      (fun acc l =>
        let ll := db.findSuper l
        if ll.file ≠ 0 then acc ++ [ll] else acc) []
    { outLines := printLocations db flags out
      errLines := []
      queried := db.findSymbol arg }

/-- Mirrors the `FindSubs` case of `main`: union the subclasses of the
parsed location or of every `findSymbol` result, and print only when the
set is nonempty. -/
def runFindSubs (db : DB) (flags : Nat) (arg : String) : ModeRun :=
  let loc := db.createLocation arg
  let out := if loc.file ≠ 0 then locUnion [] (db.findSubs loc)
             else (db.findSymbol arg).foldl
               (fun acc l => locUnion acc (db.findSubs l)) []
  { outLines := if out ≠ [] then printLocations db flags out else []
    errLines := []
    queried := if loc.file ≠ 0 then [loc] else db.findSymbol arg }

/-- The query modes of `main` (`enum Mode`). -/
inductive QMode
  | noMode
  | followSymbol
  | references
  | findSymbols
  | listSymbols
  | files
  | allReferences
  | findSuper
  | findSubs
deriving DecidableEq, Repr

/-- Dispatch one mode case of the `switch (mode)` in `main` for one opened
database (`noMode` is rejected by the caller before dispatch). -/
def runMode (db : DB) (flags : Nat) (arg : String) : QMode → ModeRun
  | .noMode => { outLines := [], errLines := [], queried := [] }
  | .followSymbol => runFollow db flags arg
  | .references => runReferences db flags arg
  | .findSymbols => runFindSymbols db flags arg
  | .listSymbols => runListSymbols db flags arg
  | .files => runFiles db flags arg
  | .allReferences => runAllReferences db flags arg
  | .findSuper => runFindSuper db flags arg
  | .findSubs => runFindSubs db flags arg

/-! ## The option loop and top-level control flow of `main` -/

/-- One option event produced by the `getopt_long` loop, carrying the
resolved argument text where the C++ reads `optarg` (or peeks the next
`argv` entry for `--files` and `--list-symbols`). -/
inductive Opt
  | invalidOption
  | help
  | noContext
  | sepSpace
  | sortOut
  | pathsRel
  | dbType (v : String)
  | detectDb
  | dbPath (v : String)
  | allRefs (a : String)
  | follow (a : String)
  | refs (a : String)
  | findSyms (a : String)
  | listSyms (a : String)
  | filesOpt (a : String)
  | superOpt (a : String)
  | subsOpt (a : String)
deriving DecidableEq, Repr

/-- The process environment `main` consults: `findRtagsDb` (optionally
seeded with a hint path) and opening a database at a path (`none` when
`Database::create` yields an unopened database). -/
structure Env where
  findDb : Option String → Option String
  openDb : String → Option DB

/-- The mutable state of the option loop in `main`. -/
structure PState where
  mode : QMode
  flags : Nat
  arg : String
  dbPaths : List String

/-- The ways the option loop returns from `main` early. -/
inductive EarlyExit
  | invalidOption
  | helpShown
  | modeAlreadySet
deriving DecidableEq, Repr

/-- Mirrors the `SET_MODE` macro: entering a mode option when a mode is
already set prints `Mode is already set` and returns 1. -/
def setMode (st : PState) (m : QMode) (a : String) : Except EarlyExit PState :=
  if st.mode ≠ QMode.noMode then .error .modeAlreadySet
  else .ok { st with mode := m, arg := a }

/-- Mirrors the `getopt_long` loop of `main` over the option events. -/
def parseOpts (env : Env) : List Opt → PState → Except EarlyExit PState
  | [], st => .ok st
  | o :: rest, st =>
    match o with
    | .invalidOption => .error .invalidOption
    | .help => .error .helpShown
    | .noContext => parseOpts env rest { st with flags := st.flags ||| noContextFlag }
    | .sepSpace => parseOpts env rest { st with flags := st.flags ||| separateBySpace }
    | .sortOut => parseOpts env rest { st with flags := st.flags ||| sortOutputFlag }
    | .pathsRel => parseOpts env rest { st with flags := st.flags ||| pathsRelFlag }
    | .dbType _ => parseOpts env rest st
    | .detectDb =>
      match env.findDb none with
      | some p => parseOpts env rest { st with dbPaths := st.dbPaths ++ [p] }
      | none => parseOpts env rest st
    | .dbPath v =>
      if v ≠ "" then
        match env.findDb (some v) with
        | some p => parseOpts env rest { st with dbPaths := st.dbPaths ++ [p] }
        | none => parseOpts env rest st
      else parseOpts env rest st
    | .allRefs a =>
      match setMode st .allReferences a with
      | .error e => .error e
      | .ok st2 => parseOpts env rest st2
    | .follow a =>
      match setMode st .followSymbol a with
      | .error e => .error e
      | .ok st2 => parseOpts env rest st2
    | .refs a =>
      match setMode st .references a with
      | .error e => .error e
      | .ok st2 => parseOpts env rest st2
    | .findSyms a =>
      match setMode st .findSymbols a with
      | .error e => .error e
      | .ok st2 => parseOpts env rest st2
    | .listSyms a =>
      match setMode st .listSymbols a with
      | .error e => .error e
      | .ok st2 => parseOpts env rest st2
    | .filesOpt a =>
      match setMode st .files a with
      | .error e => .error e
      | .ok st2 => parseOpts env rest st2
    | .superOpt a =>
      match setMode st .findSuper a with
      | .error e => .error e
      | .ok st2 => parseOpts env rest st2
    | .subsOpt a =>
      match setMode st .findSubs a with
      | .error e => .error e
      | .ok st2 => parseOpts env rest st2

/-- The option-loop state at entry of `main`. -/
def initState : PState :=
  { mode := .noMode, flags := 0, arg := "", dbPaths := [] }

/-- Mirrors the database fallback after the option loop: when no `-d`/`-D`
option produced a path, try `findRtagsDb()` and then, if that failed and an
argument was given, `findRtagsDb(arg)`. -/
def resolveDbPaths (env : Env) (st : PState) : List String :=
  if st.dbPaths = [] then
    let d := env.findDb none
    let d := if d = none ∧ st.arg ≠ "" then env.findDb (some st.arg) else d
    match d with
    | some p => [p]
    | none => []
  else st.dbPaths

/-- The observable outcome of one `rc` invocation: exit status, stdout and
stderr lines, which databases were successfully opened, and every location
handed to a location-based query primitive. -/
structure MainResult where
  exitCode : Nat
  outLines : List String
  errLines : List String
  openedDbs : List String
  queried : List Loc
deriving DecidableEq, Repr

/-- Mirrors the `foreach (dbPath, dbPaths)` loop of `main`: skip empty
paths and unopened databases, return 1 at the first opened database when no
mode was selected, otherwise run the mode on every opened database and
return 0. -/
def runDbs (env : Env) (mode : QMode) (flags : Nat) (arg : String) :
    List String → List String → List String → List String → List Loc → MainResult
  | [], outAcc, errAcc, opened, q =>
    { exitCode := 0, outLines := outAcc, errLines := errAcc, openedDbs := opened, queried := q }
  | p :: rest, outAcc, errAcc, opened, q =>
    if p = "" then runDbs env mode flags arg rest outAcc errAcc opened q
    else
      match env.openDb p with
      | none => runDbs env mode flags arg rest outAcc errAcc opened q
      | some db =>
        if mode = QMode.noMode then
          { exitCode := 1, outLines := outAcc, errLines := errAcc ++ ["No mode selected"]
            openedDbs := opened ++ [p], queried := q }
        else
          let r := runMode db flags arg mode
          runDbs env mode flags arg rest (outAcc ++ r.outLines) (errAcc ++ r.errLines)
            (opened ++ [p]) (q ++ r.queried)

/-- The whole of `main` after the argv logging block: parse the options,
resolve database paths, and run the selected mode over the databases. -/
def rcMain (env : Env) (opts : List Opt) : MainResult :=
  match parseOpts env opts initState with
  | .error .invalidOption =>
    { exitCode := 1, outLines := [], errLines := ["invalid option"], openedDbs := [], queried := [] }
  | .error .helpShown =>
    { exitCode := 0, outLines := [], errLines := [], openedDbs := [], queried := [] }
  | .error .modeAlreadySet =>
    { exitCode := 1, outLines := [], errLines := ["Mode is already set"], openedDbs := [], queried := [] }
  | .ok st =>
    let dbPaths := resolveDbPaths env st
    if dbPaths = [] then
      { exitCode := 1, outLines := [], errLines := ["No databases specified"], openedDbs := [], queried := [] }
    else runDbs env st.mode st.flags st.arg dbPaths [] [] [] []

/-! ## Concrete databases and environments for witnesses and counterexamples -/

/-- A stored, valid location. -/
def l1 : Loc := ⟨1, 1, 1⟩

/-- Another stored, valid location. -/
def l2 : Loc := ⟨1, 2, 3⟩

/-- The sentinel invalid location (zero FileId). -/
def invalidLoc : Loc := ⟨0, 0, 0⟩

/-- A concrete database whose `createLocation` never parses, whose
`findSymbol` always resolves to two valid locations, and whose symbol list
comes back in non-alphabetical store order. -/
def cexDB : DB :=
  { createLocation := fun _ => invalidLoc
    followLocation := fun l => l
    findSuper := fun l => l
    allReferences := fun l => [l]
    findReferences := fun _ => [l2]
    findSubs := fun _ => [l2]
    findSymbol := fun _ => [l1, l2]
    listSymbols := fun _ => ["b", "a"]
    filesList := ["main.cpp", "foo.h"]
    sourceDir := "/src/"
    pathOf := fun _ => "/t/a.cpp"
    fileLine := fun _ => none }

/-- A concrete database whose `createLocation` always parses to `l1`. -/
def demoDB : DB :=
  { cexDB with createLocation := fun _ => l1 }

/-- An environment where path discovery and database opening both fail. -/
def emptyEnv : Env :=
  { findDb := fun _ => none, openDb := fun _ => none }

/-! ## C2: location-vs-name dispatch of the query argument -/

/-- C2 counterexample: with an argument that does not parse as a location,
the all-references mode runs no query and prints nothing on stdout - even
though `findSymbol` resolves the name to locations - instead of
broadcasting the query over the `findSymbol` results as the claim states
for every mode. -/
theorem allReferences_no_name_fallback :
    (runAllReferences cexDB 0 "foo").queried = [] ∧
    (runAllReferences cexDB 0 "foo").outLines = [] ∧
    (runAllReferences cexDB 0 "foo").errLines = ["Invalid arg foo"] ∧
    cexDB.findSymbol "foo" = [l1, l2] := by
  decide

/-- C2 (amended): for follow-symbol, find-references, find-super and
find-subs, a valid-location argument is queried directly and an
unparseable argument falls back to `findSymbol`, broadcasting the query
over every resulting location; all-references queries a valid location
directly but, when the argument does not parse, reports `Invalid arg` on
stderr and runs no query at all. -/
theorem query_dispatch_amended (db : DB) (flags : Nat) (arg : String) :
    ((db.createLocation arg).file ≠ 0 →
      (runFollow db flags arg).queried = [db.createLocation arg] ∧
      (runReferences db flags arg).queried = [db.createLocation arg] ∧
      (runFindSuper db flags arg).queried = [db.createLocation arg] ∧
      (runFindSubs db flags arg).queried = [db.createLocation arg] ∧
      (runAllReferences db flags arg).queried = [db.createLocation arg]) ∧
    ((db.createLocation arg).file = 0 →
      (runFollow db flags arg).queried = db.findSymbol arg ∧
      (runReferences db flags arg).queried = db.findSymbol arg ∧
      (runFindSuper db flags arg).queried = db.findSymbol arg ∧
      (runFindSubs db flags arg).queried = db.findSymbol arg ∧
      (runAllReferences db flags arg).queried = [] ∧
      (runAllReferences db flags arg).errLines = ["Invalid arg " ++ arg]) := by
  constructor
  · intro h
    simp [runFollow, runReferences, runFindSuper, runFindSubs, runAllReferences, h]
  · intro h
    simp [runFollow, runReferences, runFindSuper, runFindSubs, runAllReferences, h]

/-- Witness for C2 (amended): the name fallback of follow-symbol at a
concrete database. -/
theorem query_dispatch_amended_witness :
    (runFollow cexDB 0 "foo").queried = cexDB.findSymbol "foo" :=
  ((query_dispatch_amended cexDB 0 "foo").2 (by decide)).1

/-! ## C4: single-result modes -/

/-- C4 counterexample: under the name-based fallback, follow-symbol prints
one line per resolved symbol location - two lines here - refuting the
at-most-one-line claim. -/
theorem follow_emits_two_lines :
    (runFollow cexDB 0 "foo").outLines.length = 2 := by
  decide

/-- C4 (amended): when the argument parses as a valid location,
follow-symbol and find-super emit zero lines when no result is found and
exactly one line otherwise; under the name-based fallback they may emit one
line per resolved symbol location. -/
theorem single_result_modes_amended (db : DB) (flags : Nat) (arg : String)
    (h : (db.createLocation arg).file ≠ 0) :
    ((db.followLocation (db.createLocation arg)).file = 0 →
      (runFollow db flags arg).outLines = []) ∧
    ((db.followLocation (db.createLocation arg)).file ≠ 0 →
      (runFollow db flags arg).outLines.length = 1) ∧
    ((db.findSuper (db.createLocation arg)).file = 0 →
      (runFindSuper db flags arg).outLines = []) ∧
    ((db.findSuper (db.createLocation arg)).file ≠ 0 →
      (runFindSuper db flags arg).outLines.length = 1) := by
  refine ⟨?_, ?_, ?_, ?_⟩ <;> intro h2 <;>
    simp [runFollow, runFindSuper, printLocation, h, h2]

/-- Witness for C4 (amended): the direct path of follow-symbol at a
concrete database prints exactly one line. -/
theorem single_result_modes_amended_witness :
    (runFollow demoDB 0 "x").outLines.length = 1 :=
  (single_result_modes_amended demoDB 0 "x" (by decide)).2.1 (by decide)

/-! ## C5: invalid locations are never queried -/

/-- C5: provided the stored locations returned by `findSymbol` are valid,
no mode ever passes the sentinel invalid location (zero FileId) to a
location-based query primitive: every caller tests `loc.file` first and
only then falls back to name-based resolution (or, for all-references,
reports an error). -/
theorem queries_never_invalid (db : DB) (flags : Nat) (arg : String)
    (hfs : ∀ l ∈ db.findSymbol arg, l.file ≠ 0) :
    ∀ m : QMode, ∀ l ∈ (runMode db flags arg m).queried, l.file ≠ 0 := by
  intro m l hl
  cases m with
  | noMode => simp [runMode] at hl
  | findSymbols => simp [runMode, runFindSymbols] at hl
  | listSymbols => simp [runMode, runListSymbols] at hl
  | files => simp [runMode, runFiles] at hl
  | followSymbol =>
    by_cases h : (db.createLocation arg).file ≠ 0
    · simp [runMode, runFollow, h] at hl
      simpa [hl] using h
    · simp [runMode, runFollow, h] at hl
      exact hfs l hl
  | references =>
    by_cases h : (db.createLocation arg).file ≠ 0
    · simp [runMode, runReferences, h] at hl
      simpa [hl] using h
    · simp [runMode, runReferences, h] at hl
      exact hfs l hl
  | findSuper =>
    by_cases h : (db.createLocation arg).file ≠ 0
    · simp [runMode, runFindSuper, h] at hl
      simpa [hl] using h
    · simp [runMode, runFindSuper, h] at hl
      exact hfs l hl
  | findSubs =>
    by_cases h : (db.createLocation arg).file ≠ 0
    · simp [runMode, runFindSubs, h] at hl
      simpa [hl] using h
    · simp [runMode, runFindSubs, h] at hl
      exact hfs l hl
  | allReferences =>
    by_cases h : (db.createLocation arg).file ≠ 0
    · simp [runMode, runAllReferences, h] at hl
      simpa [hl] using h
    · simp [runMode, runAllReferences, h] at hl

/-- Witness for C5 at a concrete database whose `findSymbol` results are
all valid. -/
theorem queries_never_invalid_witness :
    l1.file ≠ 0 :=
  queries_never_invalid cexDB 0 "bar" (by decide) QMode.followSymbol l1 (by decide)

/-! ## C6: the sort-output flag -/

/-- C6: `Output::print` (used by list-symbols) sorts even though the
sort-output flag is unset, because the C++ tests the enum constant
`SortOutput` instead of `mFlags & SortOutput`; the store order
`["b", "a"]` comes out alphabetical. -/
theorem listSymbols_sorted_without_flag :
    (0 : Nat) &&& sortOutputFlag = 0 ∧
    cexDB.listSymbols "x" = ["b", "a"] ∧
    (runListSymbols cexDB 0 "x").outLines = ["a", "b"] := by
  decide

/-! ## C9: `Project::visitFile` -/

/-- The per-job state of `Project::JobData` that `visitFile` touches. -/
structure JobData where
  visited : List Nat
deriving DecidableEq, Repr

/-- The `Project` state that `visitFile` reads and writes: the
visited-files set and the job table. -/
structure ProjectState where
  visitedFiles : List Nat
  jobs : Nat → JobData

/-- Mirrors `Set::insert`: add the element when absent. -/
def setInsert (x : Nat) (s : List Nat) : List Nat :=
  if x ∈ s then s else s ++ [x]

/-- Mirrors `Project::visitFile`: when `mVisitedFiles.insert(fileId)`
inserts (the element was new) record the job id in the job's visited set
and return true; otherwise return false and change nothing. -/
def visitFile (st : ProjectState) (fileId : Nat) (jobId : Nat) : Bool × ProjectState :=
  if fileId ∈ st.visitedFiles then (false, st)
  else
    (true,
      { visitedFiles := st.visitedFiles ++ [fileId]
        jobs := fun j =>
          if j = jobId then { visited := setInsert jobId (st.jobs j).visited }
          else st.jobs j })

/-- C9: `visitFile(fileId, id)` returns true and adds `fileId` to the
visited-files set exactly when `fileId` was not already visited; a second
call with the same `fileId` returns false and leaves the visited-files set
and the job table unchanged. -/
theorem visitFile_once (st : ProjectState) (fileId jobId jobId2 : Nat) :
    ((visitFile st fileId jobId).1 = true ↔ fileId ∉ st.visitedFiles) ∧
    (fileId ∉ st.visitedFiles →
      (visitFile st fileId jobId).2.visitedFiles = st.visitedFiles ++ [fileId]) ∧
    (fileId ∈ st.visitedFiles → visitFile st fileId jobId = (false, st)) ∧
    (visitFile (visitFile st fileId jobId).2 fileId jobId2 =
      (false, (visitFile st fileId jobId).2)) := by
  by_cases h : fileId ∈ st.visitedFiles
  · simp [visitFile, h]
  · simp [visitFile, h]

/-- A concrete empty project state. -/
def demoProj : ProjectState :=
  { visitedFiles := [], jobs := fun _ => { visited := [] } }

/-- Witness for C9 at a concrete project state. -/
theorem visitFile_once_witness :
    ((visitFile demoProj 5 7).1 = true ↔ 5 ∉ demoProj.visitedFiles) ∧
    ((5 : Nat) ∉ demoProj.visitedFiles →
      (visitFile demoProj 5 7).2.visitedFiles = demoProj.visitedFiles ++ [5]) ∧
    ((5 : Nat) ∈ demoProj.visitedFiles → visitFile demoProj 5 7 = (false, demoProj)) ∧
    (visitFile (visitFile demoProj 5 7).2 5 8 = (false, (visitFile demoProj 5 7).2)) :=
  visitFile_once demoProj 5 7 8

/-! ## C10: supplying two query-mode options -/

/-- C10 counterexample: the invocation `-f x -h -r y` supplies two mode
options yet exits 0 via the help path, printing nothing to stderr, because
`-h` returns before the second mode option is reached. -/
theorem second_mode_after_help :
    (rcMain emptyEnv [Opt.follow "x", Opt.help, Opt.refs "y"]).exitCode = 0 ∧
    (rcMain emptyEnv [Opt.follow "x", Opt.help, Opt.refs "y"]).errLines = [] := by
  decide

/-- Whether the option is one of the eight query-mode options. -/
def isModeOpt : Opt → Bool
  | .allRefs _ => true
  | .follow _ => true
  | .refs _ => true
  | .findSyms _ => true
  | .listSyms _ => true
  | .filesOpt _ => true
  | .superOpt _ => true
  | .subsOpt _ => true
  | _ => false

/-- Whether the option makes the loop return before later options are
seen (`-h`, or an unrecognized option). -/
def stopsParsing : Opt → Bool
  | .invalidOption => true
  | .help => true
  | _ => false

/-- Whether option processing reaches a mode option while a mode is
already set (the accumulator records whether one has been seen). -/
def secondModeReached : List Opt → Bool → Bool
  | [], _ => false
  | o :: rest, seen =>
    if stopsParsing o then false
    else if isModeOpt o then (if seen then true else secondModeReached rest true)
    else secondModeReached rest seen

theorem parseOpts_second_mode (env : Env) :
    ∀ (opts : List Opt) (seen : Bool) (st : PState),
      (st.mode = QMode.noMode ↔ seen = false) →
      secondModeReached opts seen = true →
      parseOpts env opts st = .error .modeAlreadySet := by
  intro opts
  induction opts with
  | nil =>
    intro seen st _ h2
    simp [secondModeReached] at h2
  | cons o rest ih =>
    intro seen st h1 h2
    cases o with
    | invalidOption => simp [secondModeReached, stopsParsing] at h2
    | help => simp [secondModeReached, stopsParsing] at h2
    | noContext =>
      simp only [secondModeReached, stopsParsing, isModeOpt, Bool.false_eq_true,
        if_false] at h2
      exact ih seen _ h1 h2
    | sepSpace =>
      simp only [secondModeReached, stopsParsing, isModeOpt, Bool.false_eq_true,
        if_false] at h2
      exact ih seen _ h1 h2
    | sortOut =>
      simp only [secondModeReached, stopsParsing, isModeOpt, Bool.false_eq_true,
        if_false] at h2
      exact ih seen _ h1 h2
    | pathsRel =>
      simp only [secondModeReached, stopsParsing, isModeOpt, Bool.false_eq_true,
        if_false] at h2
      exact ih seen _ h1 h2
    | dbType v =>
      simp only [secondModeReached, stopsParsing, isModeOpt, Bool.false_eq_true,
        if_false] at h2
      exact ih seen _ h1 h2
    | detectDb =>
      simp only [secondModeReached, stopsParsing, isModeOpt, Bool.false_eq_true,
        if_false] at h2
      simp only [parseOpts]
      cases env.findDb none with
      | some p => exact ih seen _ h1 h2
      | none => exact ih seen _ h1 h2
    | dbPath v =>
      simp only [secondModeReached, stopsParsing, isModeOpt, Bool.false_eq_true,
        if_false] at h2
      simp only [parseOpts]
      by_cases hv : v ≠ ""
      · simp only [if_pos hv]
        cases env.findDb (some v) with
        | some p => exact ih seen _ h1 h2
        | none => exact ih seen _ h1 h2
      · simp only [if_neg hv]
        exact ih seen _ h1 h2
    | allRefs a =>
      cases seen with
      | true =>
        have hm : st.mode ≠ QMode.noMode := by simp [h1]
        simp [parseOpts, setMode, hm]
      | false =>
        simp only [secondModeReached, stopsParsing, isModeOpt, if_true,
          Bool.false_eq_true, if_false] at h2
        have hm : st.mode = QMode.noMode := h1.mpr rfl
        simp only [parseOpts, setMode, hm, ne_eq, not_true_eq_false, if_false,
          reduceIte]
        exact ih true _ (by simp) h2
    | follow a =>
      cases seen with
      | true =>
        have hm : st.mode ≠ QMode.noMode := by simp [h1]
        simp [parseOpts, setMode, hm]
      | false =>
        simp only [secondModeReached, stopsParsing, isModeOpt, if_true,
          Bool.false_eq_true, if_false] at h2
        have hm : st.mode = QMode.noMode := h1.mpr rfl
        simp only [parseOpts, setMode, hm, ne_eq, not_true_eq_false, if_false,
          reduceIte]
        exact ih true _ (by simp) h2
    | refs a =>
      cases seen with
      | true =>
        have hm : st.mode ≠ QMode.noMode := by simp [h1]
        simp [parseOpts, setMode, hm]
      | false =>
        simp only [secondModeReached, stopsParsing, isModeOpt, if_true,
          Bool.false_eq_true, if_false] at h2
        have hm : st.mode = QMode.noMode := h1.mpr rfl
        simp only [parseOpts, setMode, hm, ne_eq, not_true_eq_false, if_false,
          reduceIte]
        exact ih true _ (by simp) h2
    | findSyms a =>
      cases seen with
      | true =>
        have hm : st.mode ≠ QMode.noMode := by simp [h1]
        simp [parseOpts, setMode, hm]
      | false =>
        simp only [secondModeReached, stopsParsing, isModeOpt, if_true,
          Bool.false_eq_true, if_false] at h2
        have hm : st.mode = QMode.noMode := h1.mpr rfl
        simp only [parseOpts, setMode, hm, ne_eq, not_true_eq_false, if_false,
          reduceIte]
        exact ih true _ (by simp) h2
    | listSyms a =>
      cases seen with
      | true =>
        have hm : st.mode ≠ QMode.noMode := by simp [h1]
        simp [parseOpts, setMode, hm]
      | false =>
        simp only [secondModeReached, stopsParsing, isModeOpt, if_true,
          Bool.false_eq_true, if_false] at h2
        have hm : st.mode = QMode.noMode := h1.mpr rfl
        simp only [parseOpts, setMode, hm, ne_eq, not_true_eq_false, if_false,
          reduceIte]
        exact ih true _ (by simp) h2
    | filesOpt a =>
      cases seen with
      | true =>
        have hm : st.mode ≠ QMode.noMode := by simp [h1]
        simp [parseOpts, setMode, hm]
      | false =>
        simp only [secondModeReached, stopsParsing, isModeOpt, if_true,
          Bool.false_eq_true, if_false] at h2
        have hm : st.mode = QMode.noMode := h1.mpr rfl
        simp only [parseOpts, setMode, hm, ne_eq, not_true_eq_false, if_false,
          reduceIte]
        exact ih true _ (by simp) h2
    | superOpt a =>
      cases seen with
      | true =>
        have hm : st.mode ≠ QMode.noMode := by simp [h1]
        simp [parseOpts, setMode, hm]
      | false =>
        simp only [secondModeReached, stopsParsing, isModeOpt, if_true,
          Bool.false_eq_true, if_false] at h2
        have hm : st.mode = QMode.noMode := h1.mpr rfl
        simp only [parseOpts, setMode, hm, ne_eq, not_true_eq_false, if_false,
          reduceIte]
        exact ih true _ (by simp) h2
    | subsOpt a =>
      cases seen with
      | true =>
        have hm : st.mode ≠ QMode.noMode := by simp [h1]
        simp [parseOpts, setMode, hm]
      | false =>
        simp only [secondModeReached, stopsParsing, isModeOpt, if_true,
          Bool.false_eq_true, if_false] at h2
        have hm : st.mode = QMode.noMode := h1.mpr rfl
        simp only [parseOpts, setMode, hm, ne_eq, not_true_eq_false, if_false,
          reduceIte]
        exact ih true _ (by simp) h2

/-- C10 (amended): whenever option processing reaches a second query-mode
option (with no earlier help or invalid option terminating the loop
first), the program prints `Mode is already set` to stderr and exits 1
without executing any query or opening any database. -/
theorem mode_already_set_behavior (env : Env) (opts : List Opt)
    (h : secondModeReached opts false = true) :
    rcMain env opts =
      { exitCode := 1, outLines := [], errLines := ["Mode is already set"]
        openedDbs := [], queried := [] } := by
  have hp := parseOpts_second_mode env opts false initState (by simp [initState]) h
  simp [rcMain, hp]

/-- Witness for C10 (amended): two consecutive mode options. -/
theorem mode_already_set_behavior_witness :
    rcMain emptyEnv [Opt.follow "x", Opt.refs "y"] =
      { exitCode := 1, outLines := [], errLines := ["Mode is already set"]
        openedDbs := [], queried := [] } :=
  mode_already_set_behavior emptyEnv [Opt.follow "x", Opt.refs "y"] (by decide)

/-! ## C3: exit status -/

/-- Some path in the list is nonempty and opens as a database. -/
def anyOpens (env : Env) (paths : List String) : Prop :=
  ∃ p ∈ paths, p ≠ "" ∧ (env.openDb p).isSome

instance (env : Env) (paths : List String) : Decidable (anyOpens env paths) := by
  unfold anyOpens
  infer_instance

theorem runDbs_exit_zero (env : Env) (mode : QMode) (flags : Nat) (arg : String)
    (hm : mode ≠ QMode.noMode) :
    ∀ (paths outAcc errAcc opened : List String) (q : List Loc),
      (runDbs env mode flags arg paths outAcc errAcc opened q).exitCode = 0 := by
  intro paths
  induction paths with
  | nil =>
    intro _ _ _ _
    simp [runDbs]
  | cons p rest ih =>
    intro outAcc errAcc opened q
    by_cases hp : p = ""
    · simpa [runDbs, hp] using ih outAcc errAcc opened q
    · simp only [runDbs, if_neg hp]
      cases env.openDb p with
      | none => exact ih _ _ _ _
      | some db =>
        simp only [if_neg hm]
        exact ih _ _ _ _

theorem runDbs_exit_cases (env : Env) (mode : QMode) (flags : Nat) (arg : String) :
    ∀ (paths outAcc errAcc opened : List String) (q : List Loc),
      (runDbs env mode flags arg paths outAcc errAcc opened q).exitCode = 0 ∨
      (runDbs env mode flags arg paths outAcc errAcc opened q).exitCode = 1 := by
  intro paths
  induction paths with
  | nil =>
    intro _ _ _ _
    simp [runDbs]
  | cons p rest ih =>
    intro outAcc errAcc opened q
    by_cases hp : p = ""
    · simpa [runDbs, hp] using ih outAcc errAcc opened q
    · simp only [runDbs, if_neg hp]
      cases env.openDb p with
      | none => exact ih _ _ _ _
      | some db =>
        by_cases hm : mode = QMode.noMode
        · simp [hm]
        · simp only [if_neg hm]
          exact ih _ _ _ _

theorem runDbs_noMode_exit (env : Env) (flags : Nat) (arg : String) :
    ∀ (paths outAcc errAcc opened : List String) (q : List Loc),
      ((runDbs env QMode.noMode flags arg paths outAcc errAcc opened q).exitCode = 1 ↔
        anyOpens env paths) := by
  intro paths
  induction paths with
  | nil =>
    intro _ _ _ _
    simp [runDbs, anyOpens]
  | cons p rest ih =>
    intro outAcc errAcc opened q
    by_cases hp : p = ""
    · subst hp
      have hL : runDbs env QMode.noMode flags arg ("" :: rest) outAcc errAcc opened q
          = runDbs env QMode.noMode flags arg rest outAcc errAcc opened q := by
        simp [runDbs]
      rw [hL, ih]
      simp only [anyOpens, List.mem_cons]
      constructor
      · rintro ⟨x, hx, hx1, hx2⟩
        exact ⟨x, Or.inr hx, hx1, hx2⟩
      · rintro ⟨x, hx, hx1, hx2⟩
        rcases hx with rfl | hx
        · exact absurd rfl hx1
        · exact ⟨x, hx, hx1, hx2⟩
    · simp only [runDbs, if_neg hp]
      cases hdb : env.openDb p with
      | none =>
        rw [ih]
        simp only [anyOpens, List.mem_cons]
        constructor
        · rintro ⟨x, hx, hx1, hx2⟩
          exact ⟨x, Or.inr hx, hx1, hx2⟩
        · rintro ⟨x, hx, hx1, hx2⟩
          rcases hx with rfl | hx
          · rw [hdb] at hx2
            simp at hx2
          · exact ⟨x, hx, hx1, hx2⟩
      | some db =>
        simp only [if_pos rfl]
        constructor
        · intro _
          exact ⟨p, List.mem_cons_self _ _, hp, by rw [hdb]; rfl⟩
        · intro _
          rfl

/-- C3 (amended): the exit status is 0 or 1; it is 1 exactly when an
invalid option is supplied, a second mode option is reached, no database
path is found, or no mode is selected while at least one found database
opens; and whenever a query mode runs (a mode is selected, option parsing
finishes, and a database path is found) the exit status is 0 even if the
query produces no results.  When no found database opens, the program exits
0 even when no mode was selected. -/
theorem rc_exit_codes (env : Env) (opts : List Opt) :
    ((rcMain env opts).exitCode = 0 ∨ (rcMain env opts).exitCode = 1) ∧
    ((rcMain env opts).exitCode = 1 ↔
      parseOpts env opts initState = .error .invalidOption ∨
      parseOpts env opts initState = .error .modeAlreadySet ∨
      (∃ st, parseOpts env opts initState = .ok st ∧
        (resolveDbPaths env st = [] ∨
          (st.mode = QMode.noMode ∧ anyOpens env (resolveDbPaths env st))))) ∧
    (∀ st, parseOpts env opts initState = .ok st → st.mode ≠ QMode.noMode →
      resolveDbPaths env st ≠ [] → (rcMain env opts).exitCode = 0) := by
  cases hpe : parseOpts env opts initState with
  | error e =>
    cases e with
    | invalidOption => simp [rcMain, hpe]
    | helpShown => simp [rcMain, hpe]
    | modeAlreadySet => simp [rcMain, hpe]
  | ok st =>
    by_cases hdb : resolveDbPaths env st = []
    · simp [rcMain, hpe, hdb]
    · by_cases hm : st.mode = QMode.noMode
      · have hiff := runDbs_noMode_exit env st.flags st.arg (resolveDbPaths env st) [] [] [] []
        refine ⟨?_, ?_, ?_⟩
        · have := runDbs_exit_cases env st.mode st.flags st.arg (resolveDbPaths env st) [] [] [] []
          simpa [rcMain, hpe, hdb] using this
        · rw [show (rcMain env opts).exitCode
              = (runDbs env st.mode st.flags st.arg (resolveDbPaths env st) [] [] [] []).exitCode
              from by simp [rcMain, hpe, hdb]]
          rw [hm, hiff]
          simp [hdb, hm]
        · intro st2 hst2 hmode2 _
          injection hst2 with h
          subst h
          exact absurd hm hmode2
      · have hz := runDbs_exit_zero env st.mode st.flags st.arg hm
          (resolveDbPaths env st) [] [] [] []
        refine ⟨?_, ?_, ?_⟩
        · left
          simpa [rcMain, hpe, hdb] using hz
        · rw [show (rcMain env opts).exitCode
              = (runDbs env st.mode st.flags st.arg (resolveDbPaths env st) [] [] [] []).exitCode
              from by simp [rcMain, hpe, hdb]]
          rw [hz]
          simp [hdb, hm]
        · intro st2 hst2 _ _
          injection hst2 with h
          subst h
          simpa [rcMain, hpe, hdb] using hz

/-- C3 counterexample: with no options at all (so no query mode selected),
a database path that is found but fails to open makes `main` fall through
its loop and return 0 with nothing on stderr, although the claim requires
exit status 1 whenever no mode is selected. -/
theorem no_mode_exit_zero :
    (rcMain { findDb := fun _ => some "db", openDb := fun _ => none } []).exitCode = 0 ∧
    (rcMain { findDb := fun _ => some "db", openDb := fun _ => none } []).errLines = [] := by
  decide

/-- An environment whose discovered database opens as `demoDB`. -/
def demoEnv : Env :=
  { findDb := fun _ => some "p", openDb := fun _ => some demoDB }

/-- Witness for C3 (amended) at a concrete environment and invocation. -/
theorem rc_exit_codes_witness :
    ((rcMain demoEnv [Opt.follow "x"]).exitCode = 0 ∨
      (rcMain demoEnv [Opt.follow "x"]).exitCode = 1) ∧
    ((rcMain demoEnv [Opt.follow "x"]).exitCode = 1 ↔
      parseOpts demoEnv [Opt.follow "x"] initState = .error .invalidOption ∨
      parseOpts demoEnv [Opt.follow "x"] initState = .error .modeAlreadySet ∨
      (∃ st, parseOpts demoEnv [Opt.follow "x"] initState = .ok st ∧
        (resolveDbPaths demoEnv st = [] ∨
          (st.mode = QMode.noMode ∧ anyOpens demoEnv (resolveDbPaths demoEnv st))))) ∧
    (∀ st, parseOpts demoEnv [Opt.follow "x"] initState = .ok st →
      st.mode ≠ QMode.noMode → resolveDbPaths demoEnv st ≠ [] →
      (rcMain demoEnv [Opt.follow "x"]).exitCode = 0) :=
  rc_exit_codes demoEnv [Opt.follow "x"]

/-! ## C7: the files query -/

theorem strHas_nil (l : List Char) : strHas [] l = true := by
  cases l <;> simp [strHas, startsList]

theorem stringAppendCancel {r a b : String} (h : r ++ a = r ++ b) : a = b := by
  have h2 : (r ++ a).data = (r ++ b).data := by rw [h]
  rw [String.data_append, String.data_append] at h2
  exact String.ext (List.append_cancel_left h2)

theorem runFiles_outLines (db : DB) (flags : Nat) (arg : String) :
    (runFiles db flags arg).outLines =
      (db.filesList.filter fun p => strHas arg.data p.data).map
        fun p => filesRoot db flags ++ p := by
  unfold runFiles
  simp only
  congr 1
  apply List.filter_congr
  intro p _
  by_cases h : arg = ""
  · subst h
    have hd : ("" : String).data = [] := rfl
    rw [hd, strHas_nil]
    simp
  · simp [h]

/-- C7: the files query emits exactly the stored file paths containing the
argument as a substring (each prefixed by the root), in store order; with
an empty argument every stored path is emitted; and a root-prefixed path
appears in the output precisely when the bare path is stored and contains
the argument. -/
theorem files_query_substring (db : DB) (flags : Nat) (arg : String) :
    ((runFiles db flags arg).outLines =
      (db.filesList.filter fun p => strHas arg.data p.data).map
        fun p => filesRoot db flags ++ p) ∧
    (arg = "" → (runFiles db flags arg).outLines =
      db.filesList.map fun p => filesRoot db flags ++ p) ∧
    (∀ p : String, (filesRoot db flags ++ p) ∈ (runFiles db flags arg).outLines ↔
      (p ∈ db.filesList ∧ strHas arg.data p.data = true)) := by
  refine ⟨runFiles_outLines db flags arg, ?_, ?_⟩
  · intro h
    subst h
    rw [runFiles_outLines]
    congr 1
    apply List.filter_eq_self.mpr
    intro p _
    have hd : ("" : String).data = [] := rfl
    rw [hd, strHas_nil]
  · intro p
    rw [runFiles_outLines]
    constructor
    · intro hmem
      obtain ⟨q, hq, heq⟩ := List.mem_map.mp hmem
      obtain ⟨hq1, hq2⟩ := List.mem_filter.mp hq
      have : q = p := stringAppendCancel heq
      subst this
      exact ⟨hq1, hq2⟩
    · intro ⟨h1, h2⟩
      exact List.mem_map.mpr ⟨p, List.mem_filter.mpr ⟨h1, h2⟩, rfl⟩

/-- Witness for C7: membership characterization at a concrete database. -/
theorem files_query_substring_witness :
    (filesRoot cexDB 0 ++ "foo.h") ∈ (runFiles cexDB 0 "oo").outLines ↔
      ("foo.h" ∈ cexDB.filesList ∧ strHas "oo".data "foo.h".data = true) :=
  (files_query_substring cexDB 0 "oo").2.2 "foo.h"

/-! ## C8: the shape of printed location lines -/

theorem mem_sortInsert (x y : String) (l : List String) :
    y ∈ sortInsert x l ↔ y = x ∨ y ∈ l := by
  induction l with
  | nil => simp [sortInsert]
  | cons z zs ih =>
    unfold sortInsert
    by_cases h : strLe x z
    · simp only [if_pos h, List.mem_cons]
    · simp only [if_neg h, List.mem_cons, ih]
      tauto

theorem mem_sortStrings (y : String) (l : List String) :
    y ∈ sortStrings l ↔ y ∈ l := by
  induction l with
  | nil => simp [sortStrings]
  | cons x xs ih => simp [sortStrings, mem_sortInsert, ih]

/-- The context part of a printed location line: the source line preceded
by a tab, empty when the no-context flag is set or the file cannot be
opened. -/
def contextSuffix (db : DB) (flags : Nat) (loc : Loc) : String :=
  if flags &&& noContextFlag = 0 then
    match db.fileLine loc with
    | some ctx => "\t" ++ ctx
    | none => ""
  else ""

theorem printLocationImpl_format (db : DB) (flags : Nat) (loc : Loc)
    (hpre : flags &&& precedingSpace = 0) :
    printLocationImpl db flags loc =
      db.pathOf loc ++ ":" ++ toString loc.line ++ ":" ++ toString loc.column ++
        contextSuffix db flags loc := by
  unfold printLocationImpl contextSuffix locationToString
  rw [hpre]
  simp only [ne_eq, not_true_eq_false, reduceIte]
  by_cases hc : flags &&& noContextFlag = 0
  · rw [if_pos hc, if_pos hc]
    cases db.fileLine loc with
    | some ctx => simp [String.append_assoc]
    | none => simp
  · rw [if_neg hc, if_neg hc]
    simp

/-- C8: every printed location line is path:line:column followed by a tab
and the source line as context, with the context suffix omitted when the
no-context flag is set or the source file cannot be opened.  The
hypotheses pin the preceding-space bit (never settable from the command
line) and the separate-by-space bit (under which locations are joined
into a single line instead). -/
theorem location_line_format (db : DB) (flags : Nat) (locs : List Loc) (loc0 : Loc)
    (hsep : flags &&& separateBySpace = 0) (hpre : flags &&& precedingSpace = 0) :
    (printLocation db flags loc0 =
      [db.pathOf loc0 ++ ":" ++ toString loc0.line ++ ":" ++ toString loc0.column ++
        contextSuffix db flags loc0]) ∧
    (∀ line ∈ printLocations db flags locs, ∃ loc ∈ locs,
      line = db.pathOf loc ++ ":" ++ toString loc.line ++ ":" ++ toString loc.column ++
        contextSuffix db flags loc) := by
  constructor
  · unfold printLocation withoutSepFlag
    rw [if_neg (by simp [hsep])]
    rw [printLocationImpl_format db flags loc0 hpre]
  · intro line hline
    simp only [printLocations] at hline
    rw [if_neg (by simp [hsep])] at hline
    by_cases hs : flags &&& sortOutputFlag ≠ 0
    · rw [if_pos hs, mem_sortStrings] at hline
      obtain ⟨loc, hloc, rfl⟩ := List.mem_map.mp hline
      exact ⟨loc, hloc, printLocationImpl_format db flags loc hpre⟩
    · rw [if_neg hs] at hline
      obtain ⟨loc, hloc, rfl⟩ := List.mem_map.mp hline
      exact ⟨loc, hloc, printLocationImpl_format db flags loc hpre⟩

/-- Witness for C8 at a concrete database and location. -/
theorem location_line_format_witness :
    printLocation cexDB 0 l2 =
      [cexDB.pathOf l2 ++ ":" ++ toString l2.line ++ ":" ++ toString l2.column ++
        contextSuffix cexDB 0 l2] :=
  (location_line_format cexDB 0 [l1] l2 (by decide) (by decide)).1
